import Mathlib

/-!
Verification of the skiapp resort scraping/ranking core.

This file shallowly embeds the two subsystems of the repository that the
specification covers:

* `parse_trails_lifts_text` (src/resorts/scraper.py): the trails/lifts
  "open/total%" disambiguator, embedded over lists of characters with
  exact rational arithmetic.  Python's float `round` is modelled as
  round-half-to-even on exact rationals.  A Python exception escaping the
  function is modelled by the `Option` result being `none`.
* `filter_resorts_by_distance`, `_snow_quality_score`,
  `_calculate_2d_score` and `_fetch_driving_distances_batch`
  (src/resorts/distance.py): the ranking pipeline.  Machine floats are
  modelled as exact rationals.  The transcendental haversine distance and
  the real-power combined score are real-valued in the source; the
  pipeline is therefore parameterised over the straight-line distance
  function `hav` and the 2d-score function `calc2d`, while the actual
  formulas `haversine_distance` and `_calculate_2d_score` are embedded
  separately over `ℝ`.  The network call of the batch fetch is modelled
  by an explicit provider response value.
-/

set_option allowUnsafeReducibility true

attribute [semireducible] Rat.add Rat.mul Rat.inv Rat.sub Rat.div Rat.neg Rat.ofScientific

/-! ## Rounding: Python `round` on exact rationals -/

/-- Python's `round` to the nearest integer, ties to even, on rationals. -/
def pyRound (q : ℚ) : ℤ :=
  let n := ⌊q⌋
  let r := q - n
  if r < 1/2 then n
  else if 1/2 < r then n + 1
  else if n % 2 = 0 then n else n + 1

/-- Python's `round(x, places)`: round to `places` decimal digits. -/
def pyRoundTo (places : ℕ) (q : ℚ) : ℚ :=
  (pyRound (q * 10 ^ places) : ℚ) / 10 ^ places

/-! ## The trails/lifts disambiguator (`parse_trails_lifts_text`) -/

/-- Value of a nonempty ASCII digit string, as Python `int` computes it. -/
def digitsVal (ds : List Char) : ℕ :=
  ds.foldl (fun n c => 10 * n + (c.toNat - 48)) 0

/-- Split a character list into its longest digit prefix and the rest,
as the greedy regex group `(\d+)` does. -/
def spanDigits (cs : List Char) : List Char × List Char :=
  (cs.takeWhile Char.isDigit, cs.dropWhile Char.isDigit)

/-- Match the leading regex `^(\d+)/(\d+)` against the text: returns the
two (maximal, nonempty) digit groups and the remaining characters after
the second group.  The percent form `^(\d+)/(\d+)%` matched by the code
is this match plus the check that the remainder starts with a percent
sign; backtracking cannot produce other groups since a shortened digit
run is followed by a digit. -/
def matchSlashPair (cs : List Char) : Option (List Char × List Char × List Char) :=
  let (d1, r1) := spanDigits cs
  if d1.isEmpty then none
  else
    match r1 with
    | '/' :: r2 =>
      let (d2, r3) := spanDigits r2
      if d2.isEmpty then none else some (d1, d2, r3)
    | _ => none

/-- The score of one candidate split, from the source: the absolute
difference between the recomputed percentage and the parsed one, plus
the realism penalty (+500 for totals above 1000, +100 above 500). -/
def splitScore (openC total pct : ℕ) : ℕ :=
  let calcPct := pyRound ((openC : ℚ) / (total : ℚ) * 100)
  let diff := (calcPct - (pct : ℤ)).natAbs
  let penalty := if total > 1000 then 500 else if total > 500 then 100 else 0
  diff + penalty

/-- The candidate list of the disambiguator's split loop: for percentage
lengths 3, 2, 1 (in this order), split `combined` into a leading total
and a trailing percentage, keeping splits with a percentage of at most
100, a positive total, and total at least the open count.  Each kept
split is recorded as (total, score). -/
def pctCandidates (openC : ℕ) (combined : List Char) : List (ℕ × ℕ) :=
  ([3, 2, 1] : List ℕ).filterMap (fun pctLen =>
    if combined.length > pctLen then
      let total := digitsVal (combined.take (combined.length - pctLen))
      let pct := digitsVal (combined.drop (combined.length - pctLen))
      if pct ≤ 100 ∧ 0 < total ∧ openC ≤ total then
        some (total, splitScore openC total pct)
      else none
    else none)

/-- First candidate with the minimal score, as Python's stable sort by
score followed by taking the first element selects it. -/
def pickBest : List (ℕ × ℕ) → Option ℕ
  | [] => none
  | c :: cs => some (cs.foldl (fun best x => if x.2 < best.2 then x else best) c).1

/-- Does the combined digit string end in the literal digits `100`? -/
def ends100 (c : List Char) : Bool :=
  decide (3 ≤ c.length) && decide (c.drop (c.length - 3) = ['1', '0', '0'])

/-- The percent-pattern branch of `parse_trails_lifts_text` after the
open count and the combined digits have been extracted.
`some (some t)` means the branch returned `(open, t)`; `some none` means
it fell through to the bare `open/total` match; `none` means the
uncaught `ValueError` of `int('')` in the `100`-suffix special case
(combined exactly `"100"` with no candidate split) escaped. -/
def percentStage (openC : ℕ) (combined : List Char) : Option (Option ℕ) :=
  match pickBest (pctCandidates openC combined) with
  | some t => some (some t)
  | none =>
    if ends100 combined then
      if combined.length = 3 then none
      else
        let total := digitsVal (combined.take (combined.length - 3))
        if openC = total then some (some total) else some none
    else some none

/-- Embedding of `parse_trails_lifts_text` (src/resorts/scraper.py).
The outer `Option` models an escaping exception (`none`); a normal
return is `some (open?, total?)`. -/
def parse_trails_lifts_text (text : String) : Option (Option ℕ × Option ℕ) :=
  if text = "" ∨ text = "-" then some (none, none)
  else
    match matchSlashPair text.data with
    | some (d1, d2, r3) =>
      let openC := digitsVal d1
      if r3.head? = some '%' then
        match percentStage openC d2 with
        | none => none
        | some (some t) => some (some openC, some t)
        | some none => some (some openC, some (digitsVal d2))
      else some (some openC, some (digitsVal d2))
    | none => some (none, none)

/-- Did the returned pair come from the bare `^(\d+)/(\d+)` fallback
rather than from the percent disambiguation (either because the percent
pattern did not match, or because the disambiguation found no candidate
split and fell through)? -/
def usedBareFallback (text : String) : Bool :=
  match matchSlashPair text.data with
  | some (d1, d2, r3) =>
    if r3.head? = some '%' then
      match percentStage (digitsVal d1) d2 with
      | some none => true
      | _ => false
    else true
  | none => false

/-! ## The resort data model (src/resorts/models.py), restricted to the
fields the distance/scoring pipeline reads.  Nullable Django fields are
`Option`s; float fields are modelled as exact rationals. -/

structure Resort where
  name : String
  latitude : Option ℚ
  longitude : Option ℚ
  base_depth : Option ℤ
  new_snow_24h : Option ℤ
  trails_open : Option ℤ
  trails_total : Option ℤ
  lifts_open : Option ℤ
  lifts_total : Option ℤ
  is_open : Bool
deriving DecidableEq

/-- Python truthiness of a nullable integer field: `None` and `0` are
falsy. -/
def intTruthy : Option ℤ → Bool
  | none => false
  | some n => n != 0

/-- The numeric value of a nullable integer field; only used under a
truthiness guard, so the default is never observed. -/
def optQ (o : Option ℤ) : ℚ := ((o.getD 0 : ℤ) : ℚ)

/-- Embedding of `_snow_quality_score` (src/resorts/distance.py). -/
def _snow_quality_score (r : Resort) : ℚ :=
  if !r.is_open then 0
  else
    (if intTruthy r.base_depth then min (optQ r.base_depth / 2) 30 else 0)
    + (if intTruthy r.new_snow_24h then min (optQ r.new_snow_24h * 2.5) 35 else 0)
    + (if intTruthy r.trails_total && intTruthy r.trails_open then
        optQ r.trails_open / optQ r.trails_total * 20 else 0)
    + (if intTruthy r.lifts_total && intTruthy r.lifts_open then
        optQ r.lifts_open / optQ r.lifts_total * 15 else 0)

/-- The spec's formula for the open-resort snow quality score, written
from the spec's words (sum of `min(base_depth/2, 30)`,
`min(new_snow_24h*2.5, 35)`, `(trails_open/trails_total)*20` — zero when
the total is unknown or zero — and `(lifts_open/lifts_total)*15`, with
missing fields contributing zero), for comparison with the code's
`_snow_quality_score`. -/
def snowQualityScoreSpec (r : Resort) : ℚ :=
  (match r.base_depth with
   | none => 0
   | some b => min ((b : ℚ) / 2) 30)
  + (match r.new_snow_24h with
     | none => 0
     | some s => min ((s : ℚ) * 2.5) 35)
  + (match r.trails_total, r.trails_open with
     | some t, some o => if t = 0 then 0 else (o : ℚ) / (t : ℚ) * 20
     | _, _ => 0)
  + (match r.lifts_total, r.lifts_open with
     | some t, some o => if t = 0 then 0 else (o : ℚ) / (t : ℚ) * 15
     | _, _ => 0)

/-- The data-model invariants of the spec's ResortRecord on condition
fields: snow depths are nonnegative inches, and the open count is
between zero and the total when both are known. -/
def condOk (r : Resort) : Bool :=
  (match r.base_depth with
   | none => true
   | some b => decide (0 ≤ b))
  && (match r.new_snow_24h with
      | none => true
      | some s => decide (0 ≤ s))
  && (match r.trails_open, r.trails_total with
      | some o, some t => decide (0 ≤ o) && decide (o ≤ t)
      | _, _ => true)
  && (match r.lifts_open, r.lifts_total with
      | some o, some t => decide (0 ≤ o) && decide (o ≤ t)
      | _, _ => true)

/-! ## Geospatial math over the reals -/

/-- The C library `atan2` convention, as `math.atan2` exposes it. -/
noncomputable def atan2 (y x : ℝ) : ℝ :=
  if 0 < x then Real.arctan (y / x)
  else if x < 0 then
    (if 0 ≤ y then Real.arctan (y / x) + Real.pi else Real.arctan (y / x) - Real.pi)
  else
    (if 0 < y then Real.pi / 2 else if y < 0 then -(Real.pi / 2) else 0)

/-- Degrees to radians, as `math.radians`. -/
noncomputable def radians (deg : ℝ) : ℝ := deg * Real.pi / 180

/-- Embedding of `haversine_distance` (src/resorts/distance.py): the
haversine great-circle distance on a sphere of radius 3959 miles.  The
ranking pipeline below abstracts this transcendental function as a
parameter `hav`; this definition is its real-valued embedding. -/
noncomputable def haversine_distance (lat1 lon1 lat2 lon2 : ℝ) : ℝ :=
  let R : ℝ := 3959
  let lat1_rad := radians lat1
  let lat2_rad := radians lat2
  let delta_lat := radians (lat2 - lat1)
  let delta_lon := radians (lon2 - lon1)
  let a := Real.sin (delta_lat / 2) ^ 2
    + Real.cos lat1_rad * Real.cos lat2_rad * Real.sin (delta_lon / 2) ^ 2
  let c := 2 * atan2 (Real.sqrt a) (Real.sqrt (1 - a))
  R * c

/-- Embedding of `_calculate_2d_score` (src/resorts/distance.py): the
weighted geometric mean of the two normalized scores with epsilon 0.01;
the priority dimension gets weight 0.6, the other 0.4.  Real powers are
`Real.rpow`.  The ranking pipeline below abstracts this real-valued
function as a parameter `calc2d`. -/
noncomputable def _calculate_2d_score (distance_score quality_score : ℝ)
    (priority : String) : ℝ :=
  let eps : ℝ := 0.01
  let d := distance_score + eps
  let q := quality_score + eps
  let w : ℝ × ℝ := if priority = "distance" then (0.4, 0.6) else (0.6, 0.4)
  q ^ w.1 * d ^ w.2

/-! ## The batched driving-distance client -/

/-- A driving-distance lookup result for one destination, after unit
conversion: miles and (optionally) hours. -/
structure DrivingInfo where
  distance_miles : ℚ
  duration_hours : Option ℚ
deriving DecidableEq

/-- The modelled OSRM Table API response body: the top-level `code`
string and the two optional matrices (missing keys are `none`; matrix
entries may be null). -/
structure OsrmTableResponse where
  code : Option String
  distances : Option (List (List (Option ℚ)))
  durations : Option (List (List (Option ℚ)))

/-- Conversion of one resolved matrix entry, from the source: meters to
miles via 1609.344 (rounded to 1 decimal) and seconds to hours via 3600
(rounded to 2 decimals); a null or zero seconds value leaves the
duration unknown (Python truthiness). -/
def osrmEntry (meters : ℚ) (dur : Option ℚ) : DrivingInfo :=
  { distance_miles := pyRoundTo 1 (meters / 1609.344)
    duration_hours :=
      match dur with
      | some s => if s = 0 then none else some (pyRoundTo 2 (s / 3600))
      | none => none }

/-- The per-candidate loop of `_fetch_driving_distances_batch`: index
`i + 1` into the distance row decides availability; a resolved distance
entry reads the same index of the durations row, and an out-of-range
read there is the `IndexError` (`.error`) that discards the whole
batch. -/
def batchLoop (drow trow : List (Option ℚ)) :
    List Resort → ℕ → Except Unit (List (Resort × Option DrivingInfo))
  | [], _ => .ok []
  | r :: rest, i =>
    match drow[i + 1]? with
    | some (some m) =>
      match trow[i + 1]? with
      | none => .error ()
      | some dur =>
        match batchLoop drow trow rest (i + 1) with
        | .error e => .error e
        | .ok tl => .ok ((r, some (osrmEntry m dur)) :: tl)
    | _ =>
      match batchLoop drow trow rest (i + 1) with
      | .error e => .error e
      | .ok tl => .ok ((r, none) :: tl)

/-- Embedding of `_fetch_driving_distances_batch`
(src/resorts/distance.py).  The network call is modelled by `outcome`:
`none` is a transport failure (request exception or non-JSON body); a
response value carries the parsed body.  All Python exceptions inside
the function are caught and degrade to all-unavailable, so the
embedding is total. -/
def _fetch_driving_distances_batch (candidates : List Resort)
    (outcome : Option OsrmTableResponse) : List (Resort × Option DrivingInfo) :=
  if candidates.isEmpty then []
  else
    match outcome with
    | none => candidates.map (fun r => (r, none))
    | some data =>
      if data.code ≠ some "Ok" then candidates.map (fun r => (r, none))
      else
        match (data.distances.getD [[]]).head?, (data.durations.getD [[]]).head? with
        | some drow, some trow =>
          (match batchLoop drow trow candidates 0 with
           | .ok l => l
           | .error _ => candidates.map (fun r => (r, none)))
        | _, _ => candidates.map (fun r => (r, none))

/-- The expected per-candidate batch result for an aligned `Ok`
response, used to state the per-destination contract: candidate `i`
reads row index `i + 1`. -/
def batchExpected (drow trow : List (Option ℚ)) (i : ℕ) : Option DrivingInfo :=
  match drow[i + 1]? with
  | some (some m) => some (osrmEntry m (trow[i + 1]?).join)
  | _ => none

/-! ## The ranking pipeline (`filter_resorts_by_distance`)

The pipeline is embedded stage by stage, parameterised over the
straight-line distance function `hav` (the embedding of the
transcendental `haversine_distance`) and the combined-score function
`calc2d` (the embedding of the real-powered `_calculate_2d_score`), so
that the pipeline itself stays executable over exact rationals; every
pipeline theorem quantifies over both parameters. -/

/-- Python truthiness of both coordinates: `None`, `0` and `0.0` are
falsy, so a zero coordinate fails the check. -/
def coordsTruthy (r : Resort) : Bool :=
  match r.latitude, r.longitude with
  | some a, some b => a != 0 && b != 0
  | _, _ => false

/-- The straight-line distance of a resort from the user, computed only
after the coordinate truthiness guard (the defaults are never
observed). -/
def resortStraightLine (hav : ℚ → ℚ → ℚ → ℚ → ℚ) (ulat ulng : ℚ) (r : Resort) : ℚ :=
  hav ulat ulng (r.latitude.getD 0) (r.longitude.getD 0)

/-- Stage 1 of `filter_resorts_by_distance`: drop records with falsy
coordinates and keep those within 1.5 times the maximum distance by
straight-line distance. -/
def preFilter (hav : ℚ → ℚ → ℚ → ℚ → ℚ) (ulat ulng maxd : ℚ)
    (resorts : List Resort) : List Resort :=
  resorts.filter (fun r =>
    coordsTruthy r && decide (resortStraightLine hav ulat ulng r ≤ maxd * 1.5))

/-- One record in the results list built by stage 2. -/
structure RankEntry where
  resort : Resort
  distance : ℚ
  driving_hours : Option ℚ
  snow_quality : ℚ
deriving DecidableEq

/-- Stage 2 body for one candidate: a resolved driving lookup keeps the
candidate iff its driving distance is within the maximum; a failed
lookup falls back to the straight-line distance with an unknown
duration. -/
def resolveCandidate (hav : ℚ → ℚ → ℚ → ℚ → ℚ)
    (driving : Resort → Option DrivingInfo) (ulat ulng maxd : ℚ) (r : Resort) :
    Option RankEntry :=
  match driving r with
  | some info =>
    if info.distance_miles ≤ maxd then
      some ⟨r, info.distance_miles, info.duration_hours, _snow_quality_score r⟩
    else none
  | none =>
    let straight_line := resortStraightLine hav ulat ulng r
    if straight_line ≤ maxd then
      some ⟨r, straight_line, none, _snow_quality_score r⟩
    else none

/-- The pre-sort results list: stage 1 then stage 2.  The batch lookup
is modelled by the per-resort oracle `driving` (the batch call pairs
each candidate with its own lookup result, in order). -/
def stage2Results (hav : ℚ → ℚ → ℚ → ℚ → ℚ)
    (driving : Resort → Option DrivingInfo) (resorts : List Resort)
    (ulat ulng maxd : ℚ) : List RankEntry :=
  (preFilter hav ulat ulng maxd resorts).filterMap
    (resolveCandidate hav driving ulat ulng maxd)

/-- Python `max` over a nonempty list (fold from the head); the empty
case is never reached by the pipeline. -/
def pyMax : List ℚ → ℚ
  | [] => 0
  | x :: xs => xs.foldl max x

/-- A stage-3 scored record. -/
structure ScoredEntry where
  resort : Resort
  distance : ℚ
  driving_hours : Option ℚ
  snow_quality : ℚ
  distance_score : ℚ
  quality_score : ℚ
  combined_score : ℚ
deriving DecidableEq

/-- Stage 3 scoring of one record given the result-set maximum
distance. -/
def scoreEntry (max_dist : ℚ) (calc2d : ℚ → ℚ → String → ℚ) (priority : String)
    (r : RankEntry) : ScoredEntry :=
  let ds := 1 - r.distance / max_dist
  let qs := r.snow_quality / 100
  ⟨r.resort, r.distance, r.driving_hours, r.snow_quality, ds, qs, calc2d ds qs priority⟩

/-- Stage 3: normalize distances against the result-set maximum (`or 1`
when the maximum is zero, by Python truthiness) and scale the snow
quality to 0–1. -/
def scoreResults (calc2d : ℚ → ℚ → String → ℚ) (priority : String)
    (results : List RankEntry) : List ScoredEntry :=
  let m := pyMax (results.map (·.distance))
  let max_dist := if m = 0 then 1 else m
  results.map (scoreEntry max_dist calc2d priority)

/-- Stage 4: Python's stable sort, by ascending distance, descending
snow quality, or descending combined score. -/
def sortResults (sort_by : String) (l : List ScoredEntry) : List ScoredEntry :=
  if sort_by = "distance" then
    l.mergeSort (fun a b => a.distance ≤ b.distance)
  else if sort_by = "conditions" then
    l.mergeSort (fun a b => b.snow_quality ≤ a.snow_quality)
  else
    l.mergeSort (fun a b => b.combined_score ≤ a.combined_score)

/-- Embedding of `filter_resorts_by_distance` (src/resorts/distance.py),
parameterised over `hav` and `calc2d` as described above. -/
def filter_resorts_by_distance (hav : ℚ → ℚ → ℚ → ℚ → ℚ)
    (calc2d : ℚ → ℚ → String → ℚ) (driving : Resort → Option DrivingInfo)
    (resorts : List Resort) (ulat ulng maxd : ℚ) (sort_by priority : String) :
    List ScoredEntry :=
  let candidates := preFilter hav ulat ulng maxd resorts
  if candidates.isEmpty then []
  else
    let results := stage2Results hav driving resorts ulat ulng maxd
    if results.isEmpty then []
    else sortResults sort_by (scoreResults calc2d priority results)

/-! ## Concrete instances used by witnesses and counterexamples -/

/-- A zero straight-line distance function, instantiating the `hav`
parameter in concrete runs (all test resorts sit at the user's
location, where the haversine distance is zero). -/
def hav0 : ℚ → ℚ → ℚ → ℚ → ℚ := fun _ _ _ _ => 0

/-- A constant combined-score function instantiating `calc2d` in
concrete runs. -/
def calc0 : ℚ → ℚ → String → ℚ := fun _ _ _ => 0

/-- A concrete open resort satisfying the data-model invariants. -/
def rOpen : Resort :=
  ⟨"open", some 1, some 1, some 20, some 4, some 30, some 100, some 3, some 6, true⟩

/-- A concrete closed resort. -/
def rClosed : Resort :=
  ⟨"closed", some 1, some 1, some 50, some 10, some 30, some 100, some 3, some 6, false⟩

/-- Concrete ranking candidate a. -/
def rA : Resort := ⟨"a", some 40, some 105, none, none, none, none, none, none, false⟩

/-- Concrete ranking candidate b. -/
def rB : Resort := ⟨"b", some 41, some 106, none, none, none, none, none, none, false⟩

/-- A concrete driving oracle: candidate a resolves at 10 miles / 1
hour, everything else at 20 miles / 2 hours. -/
def drv0 : Resort → Option DrivingInfo :=
  fun r => if r.name = "a" then some ⟨10, some 1⟩ else some ⟨20, some 2⟩

/-- The scored entry the concrete run produces for candidate a. -/
def sA : ScoredEntry := ⟨rA, 10, some 1, 0, 1/2, 0, 0⟩

/-- The scored entry the concrete run produces for candidate b. -/
def sB : ScoredEntry := ⟨rB, 20, some 2, 0, 0, 0, 0⟩

example : parse_trails_lifts_text "9/1476% Open" = some (some 9, some 147) := by decide
example : parse_trails_lifts_text "144/144100% Open" = some (some 144, some 144) := by decide
example : parse_trails_lifts_text "5/9-" = some (some 5, some 9) := by decide
example : parse_trails_lifts_text "" = some (none, none) := by decide
example : parse_trails_lifts_text "-" = some (none, none) := by decide
example : parse_trails_lifts_text "9/5" = some (some 9, some 5) := by decide
example : parse_trails_lifts_text "5/3%" = some (some 5, some 3) := by decide
example : parse_trails_lifts_text "11/100%" = none := by decide
example : parse_trails_lifts_text "45/16516% Open" = some (some 45, some 165) := by decide

/-! ## Lemmas about the disambiguator -/

theorem foldlMin_mem (cs : List (ℕ × ℕ)) (c : ℕ × ℕ) :
    cs.foldl (fun best x => if x.2 < best.2 then x else best) c ∈ c :: cs := by
  induction cs generalizing c with
  | nil => simp [List.foldl]
  | cons x xs ih =>
    simp only [List.foldl_cons]
    have h := ih (if x.2 < c.2 then x else c)
    rw [List.mem_cons] at h
    rcases h with h | h
    · rw [h]
      split
      · exact List.mem_cons_of_mem _ (List.mem_cons_self _ _)
      · exact List.mem_cons_self _ _
    · exact List.mem_cons_of_mem _ (List.mem_cons_of_mem _ h)

theorem pickBest_mem {l : List (ℕ × ℕ)} {t : ℕ} (h : pickBest l = some t) :
    ∃ s, (t, s) ∈ l := by
  match l with
  | [] => simp [pickBest] at h
  | c :: cs =>
    simp only [pickBest, Option.some.injEq] at h
    have hm := foldlMin_mem cs c
    refine ⟨(cs.foldl (fun best x => if x.2 < best.2 then x else best) c).2, ?_⟩
    rw [← h]
    exact hm

theorem pctCandidates_open_le {openC : ℕ} {combined : List Char} {p : ℕ × ℕ}
    (h : p ∈ pctCandidates openC combined) : openC ≤ p.1 := by
  simp only [pctCandidates, List.mem_filterMap] at h
  obtain ⟨pctLen, -, hf⟩ := h
  split at hf
  · split at hf
    · rename_i hc
      cases hf
      exact hc.2.2
    · cases hf
  · cases hf

theorem percentStage_open_le {openC : ℕ} {combined : List Char} {t : ℕ}
    (h : percentStage openC combined = some (some t)) : openC ≤ t := by
  cases hp : pickBest (pctCandidates openC combined) with
  | some t' =>
    simp only [percentStage, hp, Option.some.injEq] at h
    subst h
    obtain ⟨s, hs⟩ := pickBest_mem hp
    exact pctCandidates_open_le hs
  | none =>
    simp only [percentStage, hp] at h
    split at h
    · split at h
      · exact absurd h (by simp)
      · split at h
        · rename_i htot
          simp only [Option.some.injEq] at h
          omega
        · exact absurd h (by simp)
    · exact absurd h (by simp)

/-! ## Claim C1 -/

/-- C1 (corrected): as stated the claim is false (see
`parse_open_gt_total_bare_fallback`); the amended claim holds: whenever
`parse_trails_lifts_text` returns both components and the result was
produced by the percent disambiguation (not the bare `open/total`
fallback), the open count is at most the total count. -/
theorem parse_open_le_total_of_disambiguated (text : String) (o t : ℕ)
    (hres : parse_trails_lifts_text text = some (some o, some t))
    (hbare : usedBareFallback text = false) : o ≤ t := by
  by_cases hed : text = "" ∨ text = "-"
  · simp [parse_trails_lifts_text, hed] at hres
  · cases hms : matchSlashPair text.data with
    | none => simp [parse_trails_lifts_text, hed, hms] at hres
    | some g =>
      obtain ⟨d1, d2, r3⟩ := g
      by_cases hpct : r3.head? = some '%'
      · cases hps : percentStage (digitsVal d1) d2 with
        | none => simp [parse_trails_lifts_text, hed, hms, hpct, hps] at hres
        | some oT =>
          cases oT with
          | none => simp [usedBareFallback, hms, hpct, hps] at hbare
          | some t' =>
            simp only [parse_trails_lifts_text, if_neg hed, hms, if_pos hpct, hps,
              Option.some.injEq, Prod.mk.injEq] at hres
            obtain ⟨ho, ht⟩ := hres
            rw [← ho, ← ht]
            exact percentStage_open_le hps
      · simp [usedBareFallback, hms, hpct] at hbare

/-- Witness for C1's theorem at a concrete disambiguated input. -/
theorem parse_open_le_total_witness : 9 ≤ 147 :=
  parse_open_le_total_of_disambiguated "9/1476% Open" 9 147 (by decide) (by decide)

/-- C1 counterexample: on input `"9/5"` the bare fallback returns
`(9, 5)` with `open > total`, so the claim as stated is false. -/
theorem parse_open_gt_total_bare_fallback :
    parse_trails_lifts_text "9/5" = some (some 9, some 5) ∧ 5 < 9 := by
  constructor
  · decide
  · decide

/-! ## Claim C2 -/

/-- C2 (confirmed): the three concrete evaluations of
`parse_trails_lifts_text` hold exactly as the spec states them. -/
theorem parse_concrete_examples :
    parse_trails_lifts_text "9/1476% Open" = some (some 9, some 147)
    ∧ parse_trails_lifts_text "144/144100% Open" = some (some 144, some 144)
    ∧ parse_trails_lifts_text "5/9-" = some (some 5, some 9) := by
  refine ⟨by decide, by decide, by decide⟩

/-! ## Claim C3 -/

/-- C3 (corrected): the empty/`"-"` part holds, but on a percent-pattern
input with no valid split the function does not return `(null, null)`:
it falls through to the bare `open/total` match (which always matches a
prefix of the percent pattern), or, when the combined digits are exactly
`"100"` and no split is valid, the uncaught `ValueError` of `int('')`
escapes.  The amended claim: `(null, null)` is returned exactly on empty
or `"-"` input or when no leading `open/total` digits pattern matches;
a percent-pattern input whose disambiguation falls through yields the
bare pair `(open, combined)`; the `"100"`-suffix corner raises. -/
theorem parse_null_and_fallback_characterization :
    (parse_trails_lifts_text "" = some (none, none)
      ∧ parse_trails_lifts_text "-" = some (none, none))
    ∧ (∀ text : String, parse_trails_lifts_text text = some (none, none)
        ↔ (text = "" ∨ text = "-" ∨ matchSlashPair text.data = none))
    ∧ (∀ (text : String) (d1 d2 r3 : List Char),
        matchSlashPair text.data = some (d1, d2, r3) →
        r3.head? = some '%' →
        percentStage (digitsVal d1) d2 = some none →
        parse_trails_lifts_text text = some (some (digitsVal d1), some (digitsVal d2)))
    ∧ (∀ (text : String) (d1 d2 r3 : List Char),
        matchSlashPair text.data = some (d1, d2, r3) →
        r3.head? = some '%' →
        percentStage (digitsVal d1) d2 = none →
        parse_trails_lifts_text text = none) := by
  have hnoms : ∀ (text : String) (g : List Char × List Char × List Char),
      (text = "" ∨ text = "-") → matchSlashPair text.data = some g → False := by
    rintro text g (h | h) hms <;> subst h
    · rw [show matchSlashPair "".data = none from by decide] at hms
      cases hms
    · rw [show matchSlashPair "-".data = none from by decide] at hms
      cases hms
  refine ⟨⟨by decide, by decide⟩, ?_, ?_, ?_⟩
  · intro text
    constructor
    · intro hres
      by_cases hed : text = "" ∨ text = "-"
      · rcases hed with h | h
        · exact Or.inl h
        · exact Or.inr (Or.inl h)
      · cases hms : matchSlashPair text.data with
        | none => exact Or.inr (Or.inr rfl)
        | some g =>
          obtain ⟨d1, d2, r3⟩ := g
          exfalso
          by_cases hpct : r3.head? = some '%'
          · cases hps : percentStage (digitsVal d1) d2 with
            | none => simp [parse_trails_lifts_text, hed, hms, hpct, hps] at hres
            | some oT =>
              cases oT with
              | none => simp [parse_trails_lifts_text, hed, hms, hpct, hps] at hres
              | some t' => simp [parse_trails_lifts_text, hed, hms, hpct, hps] at hres
          · simp [parse_trails_lifts_text, hed, hms, hpct] at hres
    · intro hcase
      by_cases hed : text = "" ∨ text = "-"
      · simp [parse_trails_lifts_text, hed]
      · rcases hcase with h | h | h
        · exact absurd (Or.inl h) hed
        · exact absurd (Or.inr h) hed
        · simp [parse_trails_lifts_text, hed, h]
  · intro text d1 d2 r3 hms hpct hps
    have hed : ¬(text = "" ∨ text = "-") := fun hed => hnoms text _ hed hms
    simp [parse_trails_lifts_text, hed, hms, hpct, hps]
  · intro text d1 d2 r3 hms hpct hps
    have hed : ¬(text = "" ∨ text = "-") := fun hed => hnoms text _ hed hms
    simp [parse_trails_lifts_text, hed, hms, hpct, hps]

/-- Witness for C3's theorem: the fallback and exception branches at
concrete inputs. -/
theorem parse_null_characterization_witness :
    parse_trails_lifts_text "5/3%" = some (some 5, some 3)
    ∧ parse_trails_lifts_text "11/100%" = none := by
  have h := parse_null_and_fallback_characterization
  constructor
  · have h1 := h.2.2.1 "5/3%" ['5'] ['3'] ['%'] (by decide) (by decide) (by decide)
    exact h1.trans (by decide)
  · exact h.2.2.2 "11/100%" ['1', '1'] ['1', '0', '0'] ['%'] (by decide) (by decide)
      (by decide)

/-- C3 counterexample: `"5/3%"` matches the leading percent pattern, has
no valid split, yet the result is `(5, 3)`, not `(null, null)`. -/
theorem parse_no_valid_split_not_null :
    matchSlashPair "5/3%".data = some (['5'], ['3'], ['%'])
    ∧ pctCandidates 5 ['3'] = []
    ∧ parse_trails_lifts_text "5/3%" = some (some 5, some 3)
    ∧ some ((some 5 : Option ℕ), (some 3 : Option ℕ))
        ≠ some ((none : Option ℕ), (none : Option ℕ)) := by
  refine ⟨by decide, by decide, by decide, by decide⟩

/-! ## Lemmas for the snow quality score -/

theorem baseAddend_eq (b? : Option ℤ) :
    (if intTruthy b? then min (optQ b? / 2) 30 else 0 : ℚ)
      = (match b? with
         | none => (0 : ℚ)
         | some b => min ((b : ℚ) / 2) 30) := by
  cases b? with
  | none => simp [intTruthy]
  | some b =>
    by_cases hb : b = 0
    · subst hb
      simp [intTruthy, optQ]
    · simp [intTruthy, hb, optQ]

theorem snowAddend_eq (s? : Option ℤ) :
    (if intTruthy s? then min (optQ s? * 2.5) 35 else 0 : ℚ)
      = (match s? with
         | none => (0 : ℚ)
         | some s => min ((s : ℚ) * 2.5) 35) := by
  cases s? with
  | none => simp [intTruthy]
  | some s =>
    by_cases hs : s = 0
    · subst hs
      simp [intTruthy, optQ]
    · simp [intTruthy, hs, optQ]

theorem fracAddend_eq (t? o? : Option ℤ) (w : ℚ) :
    (if intTruthy t? && intTruthy o? then optQ o? / optQ t? * w else 0 : ℚ)
      = (match t?, o? with
         | some t, some o => if t = 0 then (0 : ℚ) else (o : ℚ) / (t : ℚ) * w
         | _, _ => (0 : ℚ)) := by
  cases t? with
  | none => simp [intTruthy]
  | some t =>
    cases o? with
    | none => simp [intTruthy]
    | some o =>
      by_cases ht : t = 0
      · subst ht
        simp [intTruthy]
      · by_cases ho : o = 0
        · subst ho
          simp [intTruthy, ht, optQ]
        · simp [intTruthy, ht, ho, optQ]

theorem baseAddend_bounds (b? : Option ℤ)
    (h : (match b? with
          | none => true
          | some b => decide (0 ≤ b)) = true) :
    0 ≤ (if intTruthy b? then min (optQ b? / 2) 30 else 0 : ℚ)
    ∧ (if intTruthy b? then min (optQ b? / 2) 30 else 0 : ℚ) ≤ 30 := by
  cases b? with
  | none => simp [intTruthy]
  | some b =>
    simp only [decide_eq_true_eq] at h
    by_cases hb : b = 0
    · simp [intTruthy, hb]
    · simp only [intTruthy, bne_iff_ne, ne_eq, hb, not_false_eq_true, if_true, optQ,
        Option.getD_some]
      refine ⟨le_min (by positivity) (by norm_num), min_le_right _ _⟩

theorem snowAddend_bounds (s? : Option ℤ)
    (h : (match s? with
          | none => true
          | some s => decide (0 ≤ s)) = true) :
    0 ≤ (if intTruthy s? then min (optQ s? * 2.5) 35 else 0 : ℚ)
    ∧ (if intTruthy s? then min (optQ s? * 2.5) 35 else 0 : ℚ) ≤ 35 := by
  cases s? with
  | none => simp [intTruthy]
  | some s =>
    simp only [decide_eq_true_eq] at h
    by_cases hs : s = 0
    · simp [intTruthy, hs]
    · simp only [intTruthy, bne_iff_ne, ne_eq, hs, not_false_eq_true, if_true, optQ,
        Option.getD_some]
      have hsq : (0 : ℚ) ≤ (s : ℚ) := by exact_mod_cast h
      refine ⟨le_min (by positivity) (by norm_num), min_le_right _ _⟩

theorem fracAddend_bounds (t? o? : Option ℤ) (w : ℚ) (hw : 0 ≤ w)
    (h : (match o?, t? with
          | some o, some t => decide (0 ≤ o) && decide (o ≤ t)
          | _, _ => true) = true) :
    0 ≤ (if intTruthy t? && intTruthy o? then optQ o? / optQ t? * w else 0 : ℚ)
    ∧ (if intTruthy t? && intTruthy o? then optQ o? / optQ t? * w else 0 : ℚ) ≤ w := by
  cases t? with
  | none => simpa [intTruthy] using hw
  | some t =>
    cases o? with
    | none => simpa [intTruthy] using hw
    | some o =>
      simp only [Bool.and_eq_true, decide_eq_true_eq] at h
      obtain ⟨ho0, hot⟩ := h
      by_cases ht : t = 0
      · simpa [intTruthy, ht] using hw
      · by_cases ho : o = 0
        · simpa [intTruthy, ht, ho] using hw
        · have hcond : (intTruthy (some t) && intTruthy (some o)) = true := by
            simp [intTruthy, ht, ho]
          simp only [hcond, if_true, optQ, Option.getD_some]
          have htpos : (0 : ℚ) < (t : ℚ) := by
            have : 0 < t := lt_of_lt_of_le (lt_of_le_of_ne ho0 (Ne.symm ho)) hot
            exact_mod_cast this
          have hfrac0 : (0 : ℚ) ≤ (o : ℚ) / (t : ℚ) :=
            div_nonneg (by exact_mod_cast ho0) htpos.le
          have hfrac1 : (o : ℚ) / (t : ℚ) ≤ 1 :=
            (div_le_one htpos).mpr (by exact_mod_cast hot)
          refine ⟨mul_nonneg hfrac0 hw, ?_⟩
          calc (o : ℚ) / (t : ℚ) * w ≤ 1 * w := mul_le_mul_of_nonneg_right hfrac1 hw
            _ = w := one_mul w

/-! ## Claim C5 -/

/-- C5 (confirmed): the snow quality score is 0 whenever the resort is
closed, regardless of other fields; when the resort is open it equals
the spec's sum of capped contributions (`snowQualityScoreSpec`); and
under the data-model invariants on condition fields (nonnegative snow
depths, open count between zero and the total when both known) it lies
in [0, 100]. -/
theorem snow_quality_properties (r : Resort) :
    (r.is_open = false → _snow_quality_score r = 0)
    ∧ (r.is_open = true → _snow_quality_score r = snowQualityScoreSpec r)
    ∧ (condOk r = true →
        0 ≤ _snow_quality_score r ∧ _snow_quality_score r ≤ 100) := by
  refine ⟨?_, ?_, ?_⟩
  · intro h
    simp [_snow_quality_score, h]
  · intro h
    simp only [_snow_quality_score, h, Bool.not_true, Bool.false_eq_true, if_false]
    rw [baseAddend_eq, snowAddend_eq, fracAddend_eq, fracAddend_eq]
    rfl
  · intro h
    simp only [condOk, Bool.and_eq_true] at h
    obtain ⟨⟨⟨h1, h2⟩, h3⟩, h4⟩ := h
    by_cases hopen : r.is_open
    · simp only [_snow_quality_score, hopen, Bool.not_true, Bool.false_eq_true, if_false]
      have hb := baseAddend_bounds r.base_depth h1
      have hs := snowAddend_bounds r.new_snow_24h h2
      have htr := fracAddend_bounds r.trails_total r.trails_open 20 (by norm_num) h3
      have hlf := fracAddend_bounds r.lifts_total r.lifts_open 15 (by norm_num) h4
      constructor
      · exact add_nonneg (add_nonneg (add_nonneg hb.1 hs.1) htr.1) hlf.1
      · calc _ ≤ (30 : ℚ) + 35 + 20 + 15 :=
            add_le_add (add_le_add (add_le_add hb.2 hs.2) htr.2) hlf.2
          _ = 100 := by norm_num
    · simp only [Bool.not_eq_true] at hopen
      simp [_snow_quality_score, hopen]

/-- Witness for C5's theorem at concrete open and closed records. -/
theorem snow_quality_properties_witness :
    _snow_quality_score rClosed = 0
    ∧ _snow_quality_score rOpen = snowQualityScoreSpec rOpen
    ∧ 0 ≤ _snow_quality_score rOpen ∧ _snow_quality_score rOpen ≤ 100 := by
  refine ⟨(snow_quality_properties rClosed).1 rfl,
    (snow_quality_properties rOpen).2.1 rfl,
    (snow_quality_properties rOpen).2.2 (by decide)⟩

/-! ## Claim C7 -/

/-- C7 (confirmed): the combined score equals the weighted geometric
mean `(quality + 0.01) ^ qWeight * (distance + 0.01) ^ dWeight` with the
0.6 weight on distance exactly when the priority is `"distance"` and on
quality otherwise; on `[0, 1]` it is monotone non-decreasing in each
argument with the other fixed; and the two priorities agree at the
origin. -/
theorem calculate_2d_score_properties :
    (∀ d q : ℝ, _calculate_2d_score d q "distance"
        = (q + 0.01) ^ (0.4 : ℝ) * (d + 0.01) ^ (0.6 : ℝ))
    ∧ (∀ (d q : ℝ) (p : String), p ≠ "distance" →
        _calculate_2d_score d q p = (q + 0.01) ^ (0.6 : ℝ) * (d + 0.01) ^ (0.4 : ℝ))
    ∧ (∀ (p : String) (d d' q : ℝ), 0 ≤ d → d ≤ d' → d' ≤ 1 → 0 ≤ q → q ≤ 1 →
        _calculate_2d_score d q p ≤ _calculate_2d_score d' q p)
    ∧ (∀ (p : String) (d q q' : ℝ), 0 ≤ d → d ≤ 1 → 0 ≤ q → q ≤ q' → q' ≤ 1 →
        _calculate_2d_score d q p ≤ _calculate_2d_score d q' p)
    ∧ _calculate_2d_score 0 0 "snow" = _calculate_2d_score 0 0 "distance" := by
  refine ⟨?_, ?_, ?_, ?_, ?_⟩
  · intro d q
    simp [_calculate_2d_score]
  · intro d q p hp
    simp [_calculate_2d_score, hp]
  · intro p d d' q h0 hdd h1 hq0 hq1
    by_cases hp : p = "distance" <;>
      simp only [_calculate_2d_score, hp, if_true, if_false, reduceIte] <;>
      exact mul_le_mul_of_nonneg_left
        (Real.rpow_le_rpow (by linarith) (by linarith) (by norm_num))
        (Real.rpow_nonneg (by linarith) _)
  · intro p d q q' h0 h1 hq0 hqq hq1
    by_cases hp : p = "distance" <;>
      simp only [_calculate_2d_score, hp, if_true, if_false, reduceIte] <;>
      exact mul_le_mul_of_nonneg_right
        (Real.rpow_le_rpow (by linarith) (by linarith) (by norm_num))
        (Real.rpow_nonneg (by linarith) _)
  · simp only [_calculate_2d_score, reduceIte]
    norm_num
    exact mul_comm _ _

/-- Witness for C7's theorem at concrete scores. -/
theorem calculate_2d_score_witness :
    _calculate_2d_score (1/2) (1/3) "snow"
        = ((1/3 : ℝ) + 0.01) ^ (0.6 : ℝ) * ((1/2 : ℝ) + 0.01) ^ (0.4 : ℝ)
    ∧ _calculate_2d_score 0 (1/2) "snow" ≤ _calculate_2d_score 1 (1/2) "snow"
    ∧ _calculate_2d_score (1/2) 0 "distance" ≤ _calculate_2d_score (1/2) 1 "distance" := by
  refine ⟨calculate_2d_score_properties.2.1 (1/2) (1/3) "snow" (by decide), ?_, ?_⟩
  · exact calculate_2d_score_properties.2.2.1 "snow" 0 1 (1/2)
      (by norm_num) (by norm_num) (by norm_num) (by norm_num) (by norm_num)
  · exact calculate_2d_score_properties.2.2.2.1 "distance" (1/2) 0 1
      (by norm_num) (by norm_num) (by norm_num) (by norm_num) (by norm_num)

/-! ## Lemmas about the ranking pipeline -/

theorem scoreEntry_resort (m : ℚ) (c2 : ℚ → ℚ → String → ℚ) (pr : String)
    (re : RankEntry) : (scoreEntry m c2 pr re).resort = re.resort := rfl

theorem scoreEntry_distance (m : ℚ) (c2 : ℚ → ℚ → String → ℚ) (pr : String)
    (re : RankEntry) : (scoreEntry m c2 pr re).distance = re.distance := rfl

theorem scoreEntry_driving_hours (m : ℚ) (c2 : ℚ → ℚ → String → ℚ) (pr : String)
    (re : RankEntry) : (scoreEntry m c2 pr re).driving_hours = re.driving_hours := rfl

theorem scoreEntry_snow_quality (m : ℚ) (c2 : ℚ → ℚ → String → ℚ) (pr : String)
    (re : RankEntry) : (scoreEntry m c2 pr re).snow_quality = re.snow_quality := rfl

theorem scoreEntry_distance_score (m : ℚ) (c2 : ℚ → ℚ → String → ℚ) (pr : String)
    (re : RankEntry) : (scoreEntry m c2 pr re).distance_score = 1 - re.distance / m := rfl

theorem scoreEntry_quality_score (m : ℚ) (c2 : ℚ → ℚ → String → ℚ) (pr : String)
    (re : RankEntry) : (scoreEntry m c2 pr re).quality_score = re.snow_quality / 100 := rfl

theorem sortResults_perm (sb : String) (l : List ScoredEntry) :
    (sortResults sb l).Perm l := by
  unfold sortResults
  split_ifs <;> exact List.mergeSort_perm _ _

theorem mem_filter_resorts_iff {hav : ℚ → ℚ → ℚ → ℚ → ℚ}
    {c2 : ℚ → ℚ → String → ℚ} {drv : Resort → Option DrivingInfo}
    {rs : List Resort} {ulat ulng maxd : ℚ} {sb pr : String} {e : ScoredEntry} :
    e ∈ filter_resorts_by_distance hav c2 drv rs ulat ulng maxd sb pr
      ↔ e ∈ scoreResults c2 pr (stage2Results hav drv rs ulat ulng maxd) := by
  by_cases hemp : (preFilter hav ulat ulng maxd rs).isEmpty
  · have h2 : stage2Results hav drv rs ulat ulng maxd = [] := by
      unfold stage2Results
      rw [List.isEmpty_iff.mp hemp]
      rfl
    simp [filter_resorts_by_distance, hemp, h2, scoreResults]
  · by_cases hemp2 : (stage2Results hav drv rs ulat ulng maxd).isEmpty
    · have h2 : stage2Results hav drv rs ulat ulng maxd = [] :=
        List.isEmpty_iff.mp hemp2
      simp [filter_resorts_by_distance, hemp, hemp2, h2, scoreResults]
    · have hout : filter_resorts_by_distance hav c2 drv rs ulat ulng maxd sb pr
          = sortResults sb (scoreResults c2 pr (stage2Results hav drv rs ulat ulng maxd)) := by
        simp [filter_resorts_by_distance, hemp, hemp2]
      rw [hout]
      exact (sortResults_perm _ _).mem_iff

theorem mem_scoreResults {c2 : ℚ → ℚ → String → ℚ} {pr : String}
    {results : List RankEntry} {e : ScoredEntry} :
    e ∈ scoreResults c2 pr results ↔
      ∃ re ∈ results,
        e = scoreEntry
          (if pyMax (results.map (·.distance)) = 0 then 1
           else pyMax (results.map (·.distance))) c2 pr re := by
  simp only [scoreResults, List.mem_map]
  constructor
  · rintro ⟨re, hre, rfl⟩
    exact ⟨re, hre, rfl⟩
  · rintro ⟨re, hre, rfl⟩
    exact ⟨re, hre, rfl⟩

theorem mem_stage2 {hav : ℚ → ℚ → ℚ → ℚ → ℚ} {drv : Resort → Option DrivingInfo}
    {rs : List Resort} {ulat ulng maxd : ℚ} {re : RankEntry} :
    re ∈ stage2Results hav drv rs ulat ulng maxd ↔
      ∃ r, r ∈ rs ∧ coordsTruthy r = true
        ∧ resortStraightLine hav ulat ulng r ≤ maxd * 1.5
        ∧ resolveCandidate hav drv ulat ulng maxd r = some re := by
  simp only [stage2Results, preFilter, List.mem_filterMap, List.mem_filter,
    Bool.and_eq_true, decide_eq_true_eq]
  constructor
  · rintro ⟨r, ⟨hrs, hct, hpre⟩, hres⟩
    exact ⟨r, hrs, hct, hpre, hres⟩
  · rintro ⟨r, hrs, hct, hpre, hres⟩
    exact ⟨r, ⟨hrs, hct, hpre⟩, hres⟩

theorem resolveCandidate_eq_some {hav : ℚ → ℚ → ℚ → ℚ → ℚ}
    {drv : Resort → Option DrivingInfo} {ulat ulng maxd : ℚ} {r : Resort}
    {re : RankEntry} :
    resolveCandidate hav drv ulat ulng maxd r = some re ↔
      ((∃ info, drv r = some info ∧ info.distance_miles ≤ maxd
          ∧ re = ⟨r, info.distance_miles, info.duration_hours, _snow_quality_score r⟩)
       ∨ (drv r = none ∧ resortStraightLine hav ulat ulng r ≤ maxd
          ∧ re = ⟨r, resortStraightLine hav ulat ulng r, none, _snow_quality_score r⟩)) := by
  cases hd : drv r with
  | some info =>
    simp only [resolveCandidate, hd]
    split_ifs with h
    · simp only [Option.some.injEq, hd, Option.some.injEq, reduceCtorEq, false_and,
        and_false, or_false]
      constructor
      · intro he
        exact ⟨info, rfl, h, he.symm⟩
      · rintro ⟨info', hinfo', hle', he'⟩
        cases hinfo'
        exact he'.symm
    · simp only [reduceCtorEq, hd, Option.some.injEq, false_iff, false_and, and_false,
        or_false, not_exists, not_and]
      rintro info' hinfo' hle'
      cases hinfo'
      exact absurd hle' h
  | none =>
    simp only [resolveCandidate, hd]
    split_ifs with h
    · simp only [Option.some.injEq, hd, reduceCtorEq, false_and, exists_false,
        true_and, false_or]
      constructor
      · intro he
        exact ⟨h, he.symm⟩
      · rintro ⟨-, he⟩
        exact he.symm
    · simp only [reduceCtorEq, hd, false_iff, false_and, exists_false, true_and,
        false_or, not_and]
      intro hle
      exact absurd hle h

/-! ## Claim C4 -/

/-- C4 (confirmed): a record appears in the ranking output only with
truthy coordinates; a candidate whose straight-line distance exceeds
1.5 times the maximum is excluded; and a surviving candidate is kept
with its driving distance and duration exactly when the batch lookup
resolved it within the maximum, while a failed lookup keeps it exactly
when the straight-line distance is within the maximum, with an unknown
duration.  Stated as a full characterization of output membership,
universally over the straight-line distance function, the combined
score function and the driving oracle. -/
theorem rank_membership (hav : ℚ → ℚ → ℚ → ℚ → ℚ) (c2 : ℚ → ℚ → String → ℚ)
    (drv : Resort → Option DrivingInfo) (rs : List Resort) (ulat ulng maxd : ℚ)
    (sb pr : String) (r : Resort) (d : ℚ) (dh : Option ℚ) :
    (∃ e ∈ filter_resorts_by_distance hav c2 drv rs ulat ulng maxd sb pr,
        e.resort = r ∧ e.distance = d ∧ e.driving_hours = dh)
    ↔ (r ∈ rs ∧ coordsTruthy r = true
        ∧ resortStraightLine hav ulat ulng r ≤ maxd * 1.5
        ∧ ((∃ info, drv r = some info ∧ info.distance_miles ≤ maxd
              ∧ d = info.distance_miles ∧ dh = info.duration_hours)
           ∨ (drv r = none ∧ resortStraightLine hav ulat ulng r ≤ maxd
              ∧ d = resortStraightLine hav ulat ulng r ∧ dh = none))) := by
  constructor
  · rintro ⟨e, he, hr, hd, hh⟩
    rw [mem_filter_resorts_iff, mem_scoreResults] at he
    obtain ⟨re, hre, rfl⟩ := he
    rw [mem_stage2] at hre
    obtain ⟨r', hr's, hct, hpre, hres⟩ := hre
    rw [resolveCandidate_eq_some] at hres
    rw [scoreEntry_resort] at hr
    rw [scoreEntry_distance] at hd
    rw [scoreEntry_driving_hours] at hh
    rcases hres with ⟨info, hinfo, hle, rfl⟩ | ⟨hnone, hsl, rfl⟩
    · simp only at hr hd hh
      subst hr
      exact ⟨hr's, hct, hpre, Or.inl ⟨info, hinfo, hle, hd.symm, hh.symm⟩⟩
    · simp only at hr hd hh
      subst hr
      exact ⟨hr's, hct, hpre, Or.inr ⟨hnone, hsl, hd.symm, hh.symm⟩⟩
  · rintro ⟨hrs, hct, hpre, hcase⟩
    have hM : ∀ re : RankEntry,
        re ∈ stage2Results hav drv rs ulat ulng maxd →
        (∃ e ∈ filter_resorts_by_distance hav c2 drv rs ulat ulng maxd sb pr,
          e.resort = re.resort ∧ e.distance = re.distance
            ∧ e.driving_hours = re.driving_hours) := by
      intro re hre
      refine ⟨scoreEntry
        (if pyMax ((stage2Results hav drv rs ulat ulng maxd).map (·.distance)) = 0
         then 1 else pyMax ((stage2Results hav drv rs ulat ulng maxd).map (·.distance)))
        c2 pr re, ?_, by rw [scoreEntry_resort], by rw [scoreEntry_distance],
        by rw [scoreEntry_driving_hours]⟩
      rw [mem_filter_resorts_iff, mem_scoreResults]
      exact ⟨re, hre, rfl⟩
    rcases hcase with ⟨info, hinfo, hle, rfl, rfl⟩ | ⟨hnone, hsl, rfl, rfl⟩
    · exact hM ⟨r, info.distance_miles, info.duration_hours, _snow_quality_score r⟩
        (mem_stage2.mpr ⟨r, hrs, hct, hpre,
          resolveCandidate_eq_some.mpr (Or.inl ⟨info, hinfo, hle, rfl⟩)⟩)
    · exact hM ⟨r, resortStraightLine hav ulat ulng r, none, _snow_quality_score r⟩
        (mem_stage2.mpr ⟨r, hrs, hct, hpre,
          resolveCandidate_eq_some.mpr (Or.inr ⟨hnone, hsl, rfl⟩)⟩)

/-! ## A concrete pipeline run -/

theorem concrete_scored :
    scoreResults calc0 "snow" (stage2Results hav0 drv0 [rA, rB] 39 104 100)
      = [sA, sB] := by decide

theorem concrete_out :
    filter_resorts_by_distance hav0 calc0 drv0 [rA, rB] 39 104 100 "distance" "snow"
      = [sA, sB] := by
  have h1 : (preFilter hav0 39 104 100 [rA, rB]).isEmpty = false := by decide
  have h2 : (stage2Results hav0 drv0 [rA, rB] 39 104 100).isEmpty = false := by decide
  simp only [filter_resorts_by_distance, h1, h2, Bool.false_eq_true, if_false]
  rw [concrete_scored]
  unfold sortResults
  rw [if_pos rfl]
  exact List.mergeSort_of_sorted (by decide)

/-! ## Lemmas about the Python `max` fold -/

theorem le_foldlMax_init (xs : List ℚ) (a : ℚ) : a ≤ xs.foldl max a := by
  induction xs generalizing a with
  | nil => simp
  | cons y ys ih =>
    simp only [List.foldl_cons]
    exact le_trans (le_max_left a y) (ih (max a y))

theorem le_foldlMax_mem (xs : List ℚ) : ∀ a x : ℚ, x ∈ xs → x ≤ xs.foldl max a := by
  induction xs with
  | nil => intro a x hx; cases hx
  | cons y ys ih =>
    intro a x hx
    simp only [List.foldl_cons]
    rcases List.mem_cons.mp hx with rfl | hx'
    · exact le_trans (le_max_right a x) (le_foldlMax_init ys (max a x))
    · exact ih (max a y) x hx'

theorem le_pyMax {l : List ℚ} {x : ℚ} (hx : x ∈ l) : x ≤ pyMax l := by
  cases l with
  | nil => cases hx
  | cons a xs =>
    rcases List.mem_cons.mp hx with rfl | hx'
    · exact le_foldlMax_init xs x
    · exact le_foldlMax_mem xs a x hx'

theorem foldlMax_mem (xs : List ℚ) (a : ℚ) : xs.foldl max a ∈ a :: xs := by
  induction xs generalizing a with
  | nil => simp
  | cons y ys ih =>
    simp only [List.foldl_cons]
    have h := ih (max a y)
    rw [List.mem_cons] at h
    rcases h with h | h
    · rw [h]
      rcases le_total a y with hay | hay
      · rw [max_eq_right hay]
        exact List.mem_cons_of_mem _ (List.mem_cons_self _ _)
      · rw [max_eq_left hay]
        exact List.mem_cons_self _ _
    · exact List.mem_cons_of_mem _ (List.mem_cons_of_mem _ h)

theorem pyMax_mem {l : List ℚ} (h : l ≠ []) : pyMax l ∈ l := by
  cases l with
  | nil => exact absurd rfl h
  | cons a xs => exact foldlMax_mem xs a

/-! ## Claim C6 -/

/-- C6 (corrected): as stated the claim is false — the closest candidate
does not in general have distance score 1 (see
`rank_distance_score_counterexample`).  The amended claim: every output
entry has `distance_score = 1 - distance / max_distance_in_result_set`
(with divisor 1 when that maximum is zero, by Python truthiness) and
`quality_score = snow_quality / 100`; consequently an entry of maximal
distance has distance score 0 whenever the maximum is positive. -/
theorem rank_scores_formula (hav : ℚ → ℚ → ℚ → ℚ → ℚ) (c2 : ℚ → ℚ → String → ℚ)
    (drv : Resort → Option DrivingInfo) (rs : List Resort) (ulat ulng maxd : ℚ)
    (sb pr : String) :
    (∀ e ∈ filter_resorts_by_distance hav c2 drv rs ulat ulng maxd sb pr,
        e.distance_score = 1 - e.distance /
            (if pyMax ((stage2Results hav drv rs ulat ulng maxd).map (·.distance)) = 0
             then 1
             else pyMax ((stage2Results hav drv rs ulat ulng maxd).map (·.distance)))
          ∧ e.quality_score = e.snow_quality / 100)
    ∧ (∀ e ∈ filter_resorts_by_distance hav c2 drv rs ulat ulng maxd sb pr,
        0 < pyMax ((stage2Results hav drv rs ulat ulng maxd).map (·.distance)) →
        (∀ e' ∈ filter_resorts_by_distance hav c2 drv rs ulat ulng maxd sb pr,
            e'.distance ≤ e.distance) →
        e.distance_score = 0) := by
  constructor
  · intro e he
    rw [mem_filter_resorts_iff, mem_scoreResults] at he
    obtain ⟨re, hre, rfl⟩ := he
    rw [scoreEntry_distance_score, scoreEntry_distance, scoreEntry_quality_score,
      scoreEntry_snow_quality]
    exact ⟨rfl, rfl⟩
  · intro e he hpos hmax
    rw [mem_filter_resorts_iff, mem_scoreResults] at he
    obtain ⟨re, hre, rfl⟩ := he
    have hub : re.distance
        ≤ pyMax ((stage2Results hav drv rs ulat ulng maxd).map (·.distance)) :=
      le_pyMax (List.mem_map_of_mem _ hre)
    have hmapne : (stage2Results hav drv rs ulat ulng maxd).map (·.distance) ≠ [] := by
      intro hnil
      rw [List.map_eq_nil_iff] at hnil
      rw [hnil] at hre
      cases hre
    obtain ⟨re', hre', hre'd⟩ :=
      List.mem_map.mp (pyMax_mem hmapne)
    have he'mem : scoreEntry
        (if pyMax ((stage2Results hav drv rs ulat ulng maxd).map (·.distance)) = 0
         then 1
         else pyMax ((stage2Results hav drv rs ulat ulng maxd).map (·.distance)))
        c2 pr re'
        ∈ filter_resorts_by_distance hav c2 drv rs ulat ulng maxd sb pr := by
      rw [mem_filter_resorts_iff, mem_scoreResults]
      exact ⟨re', hre', rfl⟩
    have hlb := hmax _ he'mem
    rw [scoreEntry_distance] at hlb
    rw [scoreEntry_distance] at hmax
    have hdist : re.distance
        = pyMax ((stage2Results hav drv rs ulat ulng maxd).map (·.distance)) :=
      le_antisymm hub (hre'd ▸ hlb)
    rw [scoreEntry_distance_score, if_neg (ne_of_gt hpos), hdist,
      div_self (ne_of_gt hpos)]
    norm_num

/-- Witness for C6's theorem at the concrete run: the first output entry
gets `1 - distance / 20`, and the farthest entry scores zero. -/
theorem rank_scores_formula_witness :
    sA.distance_score = 1 - sA.distance / 20 ∧ sB.distance_score = 0 := by
  constructor
  · have h := (rank_scores_formula hav0 calc0 drv0 [rA, rB] 39 104 100
      "distance" "snow").1 sA (by rw [concrete_out]; decide)
    exact h.1.trans (by decide)
  · apply (rank_scores_formula hav0 calc0 drv0 [rA, rB] 39 104 100
      "distance" "snow").2 sB (by rw [concrete_out]; decide) (by decide)
    rw [concrete_out]
    decide

/-- C6 counterexample: in the concrete run the result set has distances
10 and 20, and the closest candidate's distance score is 1/2, not 1. -/
theorem rank_distance_score_counterexample :
    filter_resorts_by_distance hav0 calc0 drv0 [rA, rB] 39 104 100 "distance" "snow"
        = [sA, sB]
    ∧ sA.distance = 10 ∧ sB.distance = 20
    ∧ sA.distance_score = 1/2 ∧ (1/2 : ℚ) ≠ 1 :=
  ⟨concrete_out, by decide, by decide, by decide, by decide⟩

/-! ## Claim C10 -/

/-- C10 (confirmed): coordinates are checked by Python truthiness, so a
zero (or missing) latitude or longitude excludes the record; every
record in the ranking output has both coordinates present and
nonzero. -/
theorem rank_output_coords (hav : ℚ → ℚ → ℚ → ℚ → ℚ) (c2 : ℚ → ℚ → String → ℚ)
    (drv : Resort → Option DrivingInfo) (rs : List Resort) (ulat ulng maxd : ℚ)
    (sb pr : String) (e : ScoredEntry)
    (he : e ∈ filter_resorts_by_distance hav c2 drv rs ulat ulng maxd sb pr) :
    (∃ a, e.resort.latitude = some a ∧ a ≠ 0)
    ∧ (∃ b, e.resort.longitude = some b ∧ b ≠ 0) := by
  rw [mem_filter_resorts_iff, mem_scoreResults] at he
  obtain ⟨re, hre, rfl⟩ := he
  rw [mem_stage2] at hre
  obtain ⟨r, -, hct, -, hres⟩ := hre
  have hr : re.resort = r := by
    rw [resolveCandidate_eq_some] at hres
    rcases hres with ⟨info, -, -, rfl⟩ | ⟨-, -, rfl⟩ <;> rfl
  rw [scoreEntry_resort, hr]
  cases hlat : r.latitude with
  | none => rw [coordsTruthy, hlat] at hct; cases hct
  | some a =>
    cases hlng : r.longitude with
    | none => rw [coordsTruthy, hlat, hlng] at hct; cases hct
    | some b =>
      rw [coordsTruthy, hlat, hlng, Bool.and_eq_true, bne_iff_ne, bne_iff_ne] at hct
      exact ⟨⟨a, rfl, hct.1⟩, ⟨b, rfl, hct.2⟩⟩

/-- Witness for C10's theorem at the concrete run. -/
theorem rank_output_coords_witness :
    (∃ a, sA.resort.latitude = some a ∧ a ≠ 0)
    ∧ (∃ b, sA.resort.longitude = some b ∧ b ≠ 0) :=
  rank_output_coords hav0 calc0 drv0 [rA, rB] 39 104 100 "distance" "snow" sA
    (by rw [concrete_out]; decide)

/-- Witness for C4's theorem at the concrete run: candidate a appears
with its resolved driving distance and duration. -/
theorem rank_membership_witness :
    ∃ e ∈ filter_resorts_by_distance hav0 calc0 drv0 [rA, rB] 39 104 100
        "distance" "snow",
      e.resort = rA ∧ e.distance = 10 ∧ e.driving_hours = some 1 := by
  apply (rank_membership hav0 calc0 drv0 [rA, rB] 39 104 100 "distance" "snow"
    rA 10 (some 1)).mpr
  exact ⟨by decide, by decide, by decide,
    Or.inl ⟨⟨10, some 1⟩, by decide, by decide, by decide, by decide⟩⟩

/-! ## Stability of the sort -/

theorem mergeSort_filter_eq {α : Type} (le : α → α → Bool)
    (htrans : ∀ a b c : α, le a b → le b c → le a c)
    (htotal : ∀ a b : α, le a b || le b a)
    (l : List α) (p : α → Bool)
    (hp : ∀ a b : α, p a = true → p b = true → le a b = true) :
    (l.mergeSort le).filter p = l.filter p := by
  have h1 : List.Sublist (l.filter p) l := List.filter_sublist l
  have hpw : (l.filter p).Pairwise (fun a b => le a b = true) := by
    apply List.pairwise_of_forall_mem_list
    intro a ha b hb
    exact hp a b (List.of_mem_filter ha) (List.of_mem_filter hb)
  have h2 : List.Sublist (l.filter p) (l.mergeSort le) :=
    List.sublist_mergeSort htrans htotal hpw h1
  have hperm : List.Perm ((l.mergeSort le).filter p) (l.filter p) :=
    (List.mergeSort_perm l le).filter p
  have h3 := h2.filter p
  rw [List.filter_filter] at h3
  simp only [Bool.and_self] at h3
  exact (h3.eq_of_length hperm.length_eq.symm).symm

/-! ## Claim C9 -/

/-- C9 (confirmed): with `sortBy = "distance"` the output distances are
non-decreasing (pairwise), and the sort is stable: for every distance
value, the output entries with that distance are exactly the pre-sort
result-list entries with that distance, in the same order. -/
theorem rank_sorted_by_distance (hav : ℚ → ℚ → ℚ → ℚ → ℚ)
    (c2 : ℚ → ℚ → String → ℚ) (drv : Resort → Option DrivingInfo)
    (rs : List Resort) (ulat ulng maxd : ℚ) (pr : String) :
    (filter_resorts_by_distance hav c2 drv rs ulat ulng maxd "distance" pr).Pairwise
        (fun a b => a.distance ≤ b.distance)
    ∧ ∀ q : ℚ,
      (filter_resorts_by_distance hav c2 drv rs ulat ulng maxd "distance" pr).filter
          (fun e => decide (e.distance = q))
        = (scoreResults c2 pr (stage2Results hav drv rs ulat ulng maxd)).filter
            (fun e => decide (e.distance = q)) := by
  have htrans : ∀ a b c : ScoredEntry,
      (decide (a.distance ≤ b.distance) : Bool) →
      (decide (b.distance ≤ c.distance) : Bool) →
      (decide (a.distance ≤ c.distance) : Bool) := by
    intro a b c hab hbc
    rw [decide_eq_true_eq] at *
    exact le_trans hab hbc
  have htotal : ∀ a b : ScoredEntry,
      ((decide (a.distance ≤ b.distance) : Bool)
        || (decide (b.distance ≤ a.distance) : Bool)) = true := by
    intro a b
    rcases le_total a.distance b.distance with h | h <;> simp [h]
  by_cases hemp : (preFilter hav ulat ulng maxd rs).isEmpty
  · have h2 : stage2Results hav drv rs ulat ulng maxd = [] := by
      unfold stage2Results
      rw [List.isEmpty_iff.mp hemp]
      rfl
    simp [filter_resorts_by_distance, hemp, h2, scoreResults]
  · by_cases hemp2 : (stage2Results hav drv rs ulat ulng maxd).isEmpty
    · have h2 : stage2Results hav drv rs ulat ulng maxd = [] :=
        List.isEmpty_iff.mp hemp2
      simp [filter_resorts_by_distance, hemp, hemp2, h2, scoreResults]
    · have hout : filter_resorts_by_distance hav c2 drv rs ulat ulng maxd "distance" pr
          = (scoreResults c2 pr (stage2Results hav drv rs ulat ulng maxd)).mergeSort
              (fun a b => a.distance ≤ b.distance) := by
        simp only [filter_resorts_by_distance, hemp, Bool.false_eq_true, if_false,
          hemp2, sortResults, if_pos rfl, if_true, ite_true]
      constructor
      · rw [hout]
        have hs := List.sorted_mergeSort htrans htotal
          (scoreResults c2 pr (stage2Results hav drv rs ulat ulng maxd))
        exact hs.imp (fun h => of_decide_eq_true h)
      · intro q
        rw [hout]
        apply mergeSort_filter_eq _ htrans htotal
        intro a b ha hb
        rw [decide_eq_true_eq] at ha hb
        rw [decide_eq_true_eq, ha, hb]

/-! ## Lemmas about the batch fetch -/

theorem batchLoop_ok_fst (drow trow : List (Option ℚ)) :
    ∀ (cands : List Resort) (i : ℕ) (l : List (Resort × Option DrivingInfo)),
      batchLoop drow trow cands i = .ok l → l.map Prod.fst = cands := by
  intro cands
  induction cands with
  | nil =>
    intro i l h
    simp only [batchLoop, Except.ok.injEq] at h
    rw [← h]
    rfl
  | cons r rest ih =>
    intro i l h
    cases hd : drow[i + 1]? with
    | some md =>
      cases md with
      | some m =>
        cases ht : trow[i + 1]? with
        | none => simp [batchLoop, hd, ht] at h
        | some dur =>
          cases hb : batchLoop drow trow rest (i + 1) with
          | error e => simp [batchLoop, hd, ht, hb] at h
          | ok tl =>
            simp only [batchLoop, hd, ht, hb, Except.ok.injEq] at h
            rw [← h]
            simp [ih (i + 1) tl hb]
      | none =>
        cases hb : batchLoop drow trow rest (i + 1) with
        | error e => simp [batchLoop, hd, hb] at h
        | ok tl =>
          simp only [batchLoop, hd, hb, Except.ok.injEq] at h
          rw [← h]
          simp [ih (i + 1) tl hb]
    | none =>
      cases hb : batchLoop drow trow rest (i + 1) with
      | error e => simp [batchLoop, hd, hb] at h
      | ok tl =>
        simp only [batchLoop, hd, hb, Except.ok.injEq] at h
        rw [← h]
        simp [ih (i + 1) tl hb]

/-- The aligned-response value of the batch loop, index-shifted. -/
def batchExpectedList (drow trow : List (Option ℚ)) :
    List Resort → ℕ → List (Resort × Option DrivingInfo)
  | [], _ => []
  | r :: rest, i =>
    (r, batchExpected drow trow i) :: batchExpectedList drow trow rest (i + 1)

theorem batchLoop_aligned (drow trow : List (Option ℚ))
    (hlen : trow.length = drow.length) :
    ∀ (cands : List Resort) (i : ℕ),
      batchLoop drow trow cands i = .ok (batchExpectedList drow trow cands i) := by
  intro cands
  induction cands with
  | nil => intro i; rfl
  | cons r rest ih =>
    intro i
    cases hd : drow[i + 1]? with
    | some md =>
      cases md with
      | some m =>
        have hlt : i + 1 < drow.length := by
          obtain ⟨hlt, -⟩ := List.getElem?_eq_some_iff.mp hd
          exact hlt
        have hlt' : i + 1 < trow.length := hlen ▸ hlt
        have ht : trow[i + 1]? = some trow[i + 1] := List.getElem?_eq_getElem hlt'
        simp only [batchLoop, hd, ht, ih (i + 1), batchExpectedList, batchExpected,
          Option.join, Option.some_bind, id]
      | none =>
        simp only [batchLoop, hd, ih (i + 1), batchExpectedList, batchExpected]
    | none =>
      simp only [batchLoop, hd, ih (i + 1), batchExpectedList, batchExpected]

theorem batchExpectedList_getElem (drow trow : List (Option ℚ)) :
    ∀ (cands : List Resort) (i j : ℕ) (hj : j < cands.length),
      (batchExpectedList drow trow cands i)[j]?
        = some (cands[j], batchExpected drow trow (i + j)) := by
  intro cands
  induction cands with
  | nil => intro i j hj; simp at hj
  | cons r rest ih =>
    intro i j hj
    cases j with
    | zero => simp [batchExpectedList]
    | succ k =>
      simp only [batchExpectedList, List.getElem?_cons_succ, List.getElem_cons_succ]
      rw [ih (i + 1) k (by simpa using hj)]
      have harith : i + 1 + k = i + (k + 1) := by omega
      rw [harith]

theorem map_fst_comp_none (cands : List Resort) :
    List.map (Prod.fst ∘ fun r => (r, (none : Option DrivingInfo))) cands = cands := by
  induction cands with
  | nil => rfl
  | cons r rest ih => simp only [List.map_cons, ih, Function.comp_apply]

/-! ## Claim C8 -/

/-- C8 (corrected): the batch lookup returns one result per input
candidate (never raising: every exception is caught and degrades the
batch); a transport failure or a non-`Ok` top-level code marks every
candidate unavailable; and for an `Ok` response with provider-shaped
(equal-length) matrix rows, each candidate is resolved from row index
`i + 1`: a null or out-of-range distance entry marks only that
candidate unavailable, and a resolved entry carries
`meters / 1609.344` rounded to 1 decimal together with
`seconds / 3600` rounded to 2 decimals — except that a null or zero
seconds value leaves the duration null, which is where the claim as
stated fails (see `batch_zero_duration_counterexample`). -/
theorem batch_fetch_contract :
    (∀ (cands : List Resort) (outcome : Option OsrmTableResponse),
        (_fetch_driving_distances_batch cands outcome).map Prod.fst = cands)
    ∧ (∀ cands : List Resort,
        _fetch_driving_distances_batch cands none
          = cands.map (fun r => (r, none)))
    ∧ (∀ (cands : List Resort) (data : OsrmTableResponse),
        data.code ≠ some "Ok" →
        _fetch_driving_distances_batch cands (some data)
          = cands.map (fun r => (r, none)))
    ∧ (∀ (cands : List Resort) (data : OsrmTableResponse)
        (drow trow : List (Option ℚ)) (drest trest : List (List (Option ℚ))),
        data.code = some "Ok" →
        data.distances = some (drow :: drest) →
        data.durations = some (trow :: trest) →
        trow.length = drow.length →
        ∀ (i : ℕ) (hi : i < cands.length),
          (_fetch_driving_distances_batch cands (some data))[i]?
            = some (cands[i], batchExpected drow trow i)) := by
  refine ⟨?_, ?_, ?_, ?_⟩
  · intro cands outcome
    by_cases hne : cands.isEmpty
    · rw [List.isEmpty_iff.mp hne]
      rfl
    · cases outcome with
      | none =>
        simp [_fetch_driving_distances_batch, hne]
        exact map_fst_comp_none cands
      | some data =>
        by_cases hcode : data.code = some "Ok"
        · cases hdd : (data.distances.getD [[]]).head? with
          | none =>
            simp [_fetch_driving_distances_batch, hne, hcode, hdd]
            exact map_fst_comp_none cands
          | some drow =>
            cases hdt : (data.durations.getD [[]]).head? with
            | none =>
              simp [_fetch_driving_distances_batch, hne, hcode, hdd, hdt]
              exact map_fst_comp_none cands
            | some trow =>
              cases hb : batchLoop drow trow cands 0 with
              | error e =>
                simp [_fetch_driving_distances_batch, hne, hcode, hdd, hdt, hb]
                exact map_fst_comp_none cands
              | ok l =>
                simp only [_fetch_driving_distances_batch, hne, Bool.false_eq_true,
                  if_false, hcode, ne_eq, not_true_eq_false, if_true, ite_false,
                  hdd, hdt, hb]
                exact batchLoop_ok_fst drow trow cands 0 l hb
        · simp [_fetch_driving_distances_batch, hne, hcode]
          exact map_fst_comp_none cands
  · intro cands
    by_cases hne : cands.isEmpty
    · rw [List.isEmpty_iff.mp hne]
      rfl
    · simp [_fetch_driving_distances_batch, hne]
  · intro cands data hcode
    by_cases hne : cands.isEmpty
    · rw [List.isEmpty_iff.mp hne]
      rfl
    · simp [_fetch_driving_distances_batch, hne, hcode]
  · intro cands data drow trow drest trest hcode hdist hdur hlen i hi
    have hne : ¬cands.isEmpty = true := by
      rw [List.isEmpty_iff]
      exact List.ne_nil_of_length_pos (lt_of_le_of_lt (Nat.zero_le i) hi)
    have hfe : _fetch_driving_distances_batch cands (some data)
        = batchExpectedList drow trow cands 0 := by
      simp only [_fetch_driving_distances_batch, hne, Bool.false_eq_true, if_false,
        hcode, ne_eq, not_true_eq_false, ite_false, hdist, hdur, Option.getD_some,
        List.head?_cons, batchLoop_aligned drow trow hlen cands 0]
    rw [hfe, batchExpectedList_getElem drow trow cands 0 i hi, Nat.zero_add]

/-- Witness for C8's theorem: a failing code marks the whole batch
unavailable, and an aligned partial `Ok` response resolves candidate 0
(1609.344 m in 7200 s gives 1.0 miles in 2.0 hours) while the null
entry for candidate 1 marks only it unavailable. -/
theorem batch_fetch_contract_witness :
    _fetch_driving_distances_batch [rA] (some ⟨some "NoRoute", none, none⟩)
        = [(rA, none)]
    ∧ (_fetch_driving_distances_batch [rA, rB]
        (some ⟨some "Ok", some [[some 0, some 1609.344, none]],
          some [[some 0, some 7200, none]]⟩))[0]?
        = some (rA, some ⟨1, some 2⟩)
    ∧ (_fetch_driving_distances_batch [rA, rB]
        (some ⟨some "Ok", some [[some 0, some 1609.344, none]],
          some [[some 0, some 7200, none]]⟩))[1]?
        = some (rB, none) := by
  refine ⟨?_, ?_, ?_⟩
  · exact batch_fetch_contract.2.2.1 [rA] ⟨some "NoRoute", none, none⟩ (by decide)
  · exact (batch_fetch_contract.2.2.2 [rA, rB] ⟨some "Ok",
      some [[some 0, some 1609.344, none]], some [[some 0, some 7200, none]]⟩
      [some 0, some 1609.344, none] [some 0, some 7200, none] [] []
      rfl rfl rfl (by decide) 0 (by decide)).trans (by decide)
  · exact (batch_fetch_contract.2.2.2 [rA, rB] ⟨some "Ok",
      some [[some 0, some 1609.344, none]], some [[some 0, some 7200, none]]⟩
      [some 0, some 1609.344, none] [some 0, some 7200, none] [] []
      rfl rfl rfl (by decide) 1 (by decide)).trans (by decide)

/-- C8 counterexample: a resolved destination whose duration entry is 0
seconds gets a null duration, not `round(0 / 3600, 2) = 0`, so the
claim's duration clause fails as stated. -/
theorem batch_zero_duration_counterexample :
    _fetch_driving_distances_batch [rA]
        (some ⟨some "Ok", some [[some 0, some 3218.688]], some [[some 0, some 0]]⟩)
      = [(rA, some ⟨2, none⟩)]
    ∧ some (⟨2, none⟩ : DrivingInfo) ≠ some (⟨2, some 0⟩ : DrivingInfo) :=
  ⟨by decide, by decide⟩
